import Mathlib

/-!
Verification development for the pyodide-bridge code generator.

The repository translates an intermediate representation (IR) of a Python
module's exported types and functions into three TypeScript artifacts
(a type-declaration file, a Web-Worker entrypoint, a set of React hooks),
plus a check mode that diffs regenerated artifacts against on-disk files.

The IR data model is embedded from `src/types.ts`; the check engine from
`src/cli/check.ts`; the runtime helpers (`detectBridgeError`,
`deepConvertMaps`, `bootstrapPyodide`) from `src/runtime/`.  The three
emitter modules (`src/cli/emitters/{types,worker,hooks}.ts`) are absent
from the repository snapshot: they are modelled from the specification and
from the repository's own emitter tests
(`tests/cli/emitters/{types,worker,hooks}.test.ts`), which pin the emitted
text fragments exactly.
-/

namespace PyodideBridge

/-- A literal constant value `(string | number | boolean)`, as used by
`LiteralAliasNode.values` and `LiteralTypeRef.values` in `src/types.ts`.
JavaScript numbers are modelled as integers (every literal used by the
repository is integral). -/
inductive LitValue where
  | str (s : String)
  | num (n : Int)
  | bool (b : Bool)
deriving DecidableEq, Repr

/-- The primitive type names of `PrimitiveTypeRef` in `src/types.ts`:
`"int" | "float" | "str" | "bool" | "None"`. -/
inductive PrimitiveName where
  | int
  | float
  | str
  | bool
  | none
deriving DecidableEq, Repr

/-- `TypeRef` from `src/types.ts`: the tagged union of type references. -/
inductive TypeRef where
  | primitive (name : PrimitiveName)
  | list (element : TypeRef)
  | dict (key : TypeRef) (value : TypeRef)
  | optional (inner : TypeRef)
  | literal (values : List LitValue)
  | reference (name : String)
deriving DecidableEq, Repr

/-- `FieldNode` from `src/types.ts`. -/
structure FieldNode where
  name : String
  type : TypeRef
  required : Bool
deriving DecidableEq, Repr

/-- `TypeNode` from `src/types.ts`: `TypeDictNode | LiteralAliasNode`. -/
inductive TypeNode where
  | typeddict (name : String) (total : Bool) (fields : List FieldNode)
  | literal (name : String) (values : List LitValue)
deriving DecidableEq, Repr

/-- `FunctionParam` from `src/types.ts`. -/
structure FunctionParam where
  name : String
  type : TypeRef
deriving DecidableEq, Repr

/-- `FunctionNode` from `src/types.ts`. -/
structure FunctionNode where
  name : String
  params : List FunctionParam
  returnType : TypeRef
deriving DecidableEq, Repr

/-- `ModuleIR` from `src/types.ts`. -/
structure ModuleIR where
  moduleName : String
  types : List TypeNode
  functions : List FunctionNode
  packages : List String
deriving DecidableEq, Repr

/-! ## String helper lemmas -/

theorem string_data_append (s t : String) : (s ++ t).data = s.data ++ t.data :=
  String.data_append s t

theorem string_append_cancel_left (s : String) {t u : String}
    (h : s ++ t = s ++ u) : t = u := by
  have hd : s.data ++ t.data = s.data ++ u.data := by
    have := congrArg String.data h
    simpa [string_data_append] using this
  have hdata : t.data = u.data := List.append_cancel_left hd
  cases t; cases u; exact congrArg String.mk hdata

theorem string_append_ne_of_ne (s : String) {a b : String} (hab : a ≠ b) :
    s ++ a ≠ s ++ b :=
  fun h => hab (string_append_cancel_left s h)

/-! ## Type-reference resolver

Modelled from the spec: the emitter sources are absent from the snapshot.
The translation table follows §4.1 of the specification and the exact
output strings pinned by `tests/cli/emitters/types.test.ts`
(`"data: number[];"`, `"lookup: Record<string, number>;"`,
`"value: number | undefined;"`, `export type Status = "ok" | "error";`). -/

/-- Render one literal constant value as a TypeScript literal token:
strings are double-quoted, numbers and booleans are bare tokens. -/
def renderLitValue : LitValue → String
  | .str s => "\"" ++ s ++ "\""
  | .num n => toString n
  | .bool b => if b then "true" else "false"

/-- Modelled from the spec: the type-reference resolver (§4.1), the pure
function from a `TypeRef` tree to TypeScript type-expression text. -/
def resolveTypeRef : TypeRef → String
  | .primitive .int => "number"
  | .primitive .float => "number"
  | .primitive .str => "string"
  | .primitive .bool => "boolean"
  | .primitive .none => "null"
  | .list e => resolveTypeRef e ++ "[]"
  | .dict k v => "Record<" ++ resolveTypeRef k ++ ", " ++ resolveTypeRef v ++ ">"
  | .optional t => resolveTypeRef t ++ " | undefined"
  | .literal vs => String.intercalate (" | ") (vs.map renderLitValue)
  | .reference n => n

/-! ## Type declarations emitter -/

/-- The machine-generated-file banner; byte-identical on every run.  The
tests only pin that it contains `DO NOT EDIT`. -/
def bannerLines : List String :=
  ["// AUTO-GENERATED by pyodide-bridge. DO NOT EDIT.", ""]

/-- Modelled from the spec and from `tests/cli/emitters/types.test.ts`:
render one record field.  The tests pin that a field renders with a `?`
marker exactly when its own `required` flag is false — the record-level
`total` flag is received but does not influence rendering (the test IR has
`total: false` with `query.required = true` and expects `query: string;`,
and `limit.required = false` expecting `limit?: number;`). -/
def renderField (_total : Bool) (f : FieldNode) : String :=
  "  " ++ f.name ++ (if f.required then "" else "?") ++ ": "
    ++ resolveTypeRef f.type ++ ";"

/-- Modelled from the spec and the emitter tests: one declaration per type
node.  A literal alias becomes a union-of-literals type; a record becomes a
structural type whose field list mirrors IR field order. -/
def emitTypeNodeLines : TypeNode → List String
  | .literal name values =>
      ["export type " ++ name ++ " = "
        ++ String.intercalate (" | ") (values.map renderLitValue) ++ ";"]
  | .typeddict name total fields =>
      ("export type " ++ name ++ " = \x7b")
        :: fields.map (renderField total) ++ ["\x7d;"]

/-- Modelled from the spec: `emitTypes` from `src/cli/emitters/types.js`
(absent from the snapshot) — banner followed by one declaration per IR type
node, in IR order. -/
def emitTypes (ir : ModuleIR) : String :=
  String.intercalate "\n" (bannerLines ++ (ir.types.map emitTypeNodeLines).flatten)

/-- Claim C6: the type-reference resolver maps every type reference
according to the fixed table — `int` and `float` to `number`, `str` to
`string`, `bool` to `boolean`, `None` to `null`, `list(E)` to
`resolve(E)[]`, `dict(K,V)` to `Record<resolve(K), resolve(V)>`,
`optional(T)` to `resolve(T) | undefined`, `literal(values)` to the union
of the quoted literal tokens in given order, and `reference(name)` to the
bare name — and this holds for nested references two levels deep
(optional-list-of-dict). -/
theorem resolveTypeRef_mapping_table :
    resolveTypeRef (.primitive .int) = "number"
    ∧ resolveTypeRef (.primitive .float) = "number"
    ∧ resolveTypeRef (.primitive .str) = "string"
    ∧ resolveTypeRef (.primitive .bool) = "boolean"
    ∧ resolveTypeRef (.primitive .none) = "null"
    ∧ (∀ e, resolveTypeRef (.list e) = resolveTypeRef e ++ "[]")
    ∧ (∀ k v, resolveTypeRef (.dict k v)
        = "Record<" ++ resolveTypeRef k ++ ", " ++ resolveTypeRef v ++ ">")
    ∧ (∀ t, resolveTypeRef (.optional t) = resolveTypeRef t ++ " | undefined")
    ∧ (∀ vs, resolveTypeRef (.literal vs)
        = String.intercalate (" | ") (vs.map renderLitValue))
    ∧ resolveTypeRef (.literal [.str "ok", .str "error"]) = "\"ok\" | \"error\""
    ∧ (∀ n, resolveTypeRef (.reference n) = n)
    ∧ resolveTypeRef
        (.optional (.list (.dict (.primitive .str) (.primitive .int))))
        = "Record<string, number>[] | undefined" := by
  refine ⟨rfl, rfl, rfl, rfl, rfl, fun e => rfl, fun k v => rfl, fun t => rfl,
    fun vs => rfl, rfl, fun n => rfl, rfl⟩

/-- Claim C1, counterexample: in the record `InputParams` of the
repository's own emitter test fixture (`tests/cli/emitters/types.test.ts`,
`simpleIR`), the record has `total = false` and the field `query` has
`required = true`.  The claim (and the spec's OR law) demands that `query`
render optional; the emitter — as pinned by the test expectation
`expect(output).toContain("query: string;")` — renders it required, with
no `?` marker, while the sibling `limit` (`required = false`) does render
optional. -/
theorem c1_total_false_required_field_counterexample :
    emitTypeNodeLines
        (.typeddict "InputParams" false
          [{ name := "query", type := .primitive .str, required := true },
           { name := "limit", type := .primitive .int, required := false }])
      = ["export type InputParams = \x7b",
         "  query: string;",
         "  limit?: number;",
         "\x7d;"]
    ∧ '?' ∉ ("  query: string;").data := by
  refine ⟨rfl, by decide⟩

/-- Claim C1, amended: a field emitted by the type declarations emitter
renders optional (with a `?` marker) if and only if the field's own
`required` flag is false; the record's `total` flag has no effect on
rendering (there is no OR with `!total`). -/
theorem c1_field_optionality_required_only (total : Bool) (f : FieldNode) :
    (renderField total f
        = "  " ++ f.name ++ "?: " ++ resolveTypeRef f.type ++ ";"
      ↔ f.required = false)
    ∧ renderField total f = renderField true f := by
  refine ⟨?_, rfl⟩
  cases hr : f.required with
  | false =>
      constructor
      · intro _; rfl
      · intro _
        simp only [renderField, hr, Bool.false_eq_true, ite_false]
        apply String.ext
        have hq : ("?" : String).data = ['?'] := rfl
        have hc : (": " : String).data = [':', ' '] := rfl
        have hq2 : ("?: " : String).data = ['?', ':', ' '] := rfl
        simp [String.data_append, hq, hc, hq2]
  | true =>
      constructor
      · intro h
        exfalso
        simp only [renderField, hr, ite_true] at h
        have hl := congrArg String.length h
        have h0 : ("" : String).length = 0 := rfl
        have hc : (": " : String).length = 2 := rfl
        have hq2 : ("?: " : String).length = 3 := rfl
        simp only [String.length_append, h0, hc, hq2] at hl
        omega
      · intro h; exact absurd h (by decide)

/-- Claim C1, witness for the amended theorem: evaluated at the test
fixture's `limit` field (`required = false`, record `total = false`). -/
theorem c1_field_optionality_witness :
    (renderField false { name := "limit", type := .primitive .int, required := false }
        = "  " ++ "limit" ++ "?: " ++ resolveTypeRef (.primitive .int) ++ ";"
      ↔ false = false)
    ∧ renderField false { name := "limit", type := .primitive .int, required := false }
        = renderField true { name := "limit", type := .primitive .int, required := false } :=
  c1_field_optionality_required_only false
    { name := "limit", type := .primitive .int, required := false }

/-! ## Worker emitter

Modelled from the spec (§4.3) and `tests/cli/emitters/worker.test.ts`: the
emitter source is absent from the snapshot.  The tests pin the fragments
`import * as Comlink from "comlink"`, `?raw` (vite), `!!raw-loader!`
(webpack), `const pythonSource` (inline), the JSON package list, the
`BridgeAPI` interface with `run_query(params: InputParams): Promise<Result>`,
and `Comlink.expose(api)`. -/

/-- Hexadecimal digit for JSON `\u00XX` escapes. -/
def hexDigit (n : Nat) : Char :=
  if n < 10 then Char.ofNat ('0'.toNat + n) else Char.ofNat ('a'.toNat + n - 10)

/-- One character of `JSON.stringify` string output. -/
def jsonEscapeChar (c : Char) : String :=
  if c = '"' then "\\\""
  else if c = '\\' then "\\\\"
  else if c = '\n' then "\\n"
  else if c = '\r' then "\\r"
  else if c = '\t' then "\\t"
  else if c = '\x08' then "\\b"
  else if c = '\x0c' then "\\f"
  else if c.toNat < 0x20 then
    "\\u00" ++ String.mk [hexDigit (c.toNat / 16), hexDigit (c.toNat % 16)]
  else String.singleton c

/-- `JSON.stringify` of a string. -/
def jsonQuote (s : String) : String :=
  "\"" ++ String.join (s.data.map jsonEscapeChar) ++ "\""

/-- `JSON.stringify` of a string array (no spaces, order preserved). -/
def jsonStringifyList (xs : List String) : String :=
  "[" ++ String.intercalate (",") (xs.map jsonQuote) ++ "]"

/-- The bundler strategy of `WorkerEmitterOptions`:
`"vite" | "webpack" | "inline"`. -/
inductive Bundler where
  | vite
  | webpack
  | inline
deriving DecidableEq, Repr

/-- `WorkerEmitterOptions` from `src/cli/emitters/worker.ts` as used by
`src/cli/check.ts` and the tests: distribution version plus bundler. -/
structure WorkerEmitterOptions where
  pyodideVersion : String
  bundler : Bundler
deriving DecidableEq, Repr

/-- Modelled from the spec: the source-acquisition statement, the single
line that depends on the bundler strategy.  `vite` imports the sibling
`.py` file with a `?raw` suffix, `webpack` with a `!!raw-loader!` path
token, and `inline` declares `const pythonSource` with the embedded
source text (the embedded literal is abstracted to an empty literal here:
the Python source is not an input of `emitWorker(ir, options)`). -/
def sourceAcquisitionLine (b : Bundler) (moduleName : String) : String :=
  match b with
  | .vite => "import pythonSource from \"./" ++ moduleName ++ ".py?raw\";"
  | .webpack => "import pythonSource from \"!!raw-loader!./" ++ moduleName ++ ".py\";"
  | .inline => "const pythonSource = \"\";"

/-- One `BridgeAPI` interface member: the function as an asynchronous
operation, parameters and return type resolved via the resolver, in IR
order.  Pinned by the test fragment
`run_query(params: InputParams): Promise<Result>`. -/
def interfaceMemberLine (fn : FunctionNode) : String :=
  "  " ++ fn.name ++ "("
    ++ String.intercalate (", ")
        (fn.params.map (fun p => p.name ++ ": " ++ resolveTypeRef p.type))
    ++ "): Promise<" ++ resolveTypeRef fn.returnType ++ ">;"

/-- The fixed head of the worker artifact (banner and imports). -/
def workerHeadLines : List String :=
  bannerLines ++ ["import * as Comlink from \"comlink\";",
    "import \x7b bootstrapPyodide \x7d from \"pyodide-bridge/runtime\";"]

/-- The fixed tail of the worker artifact after the source-acquisition
statement: interface declaration, bootstrap call, expose call. -/
def workerTailLines (ir : ModuleIR) (pyodideVersion : String) : List String :=
  [""]
  ++ ("export interface BridgeAPI \x7b"
      :: ir.functions.map interfaceMemberLine ++ ["\x7d"])
  ++ ["",
      "const pyodide = await bootstrapPyodide(\x7b",
      "  pyodideVersion: " ++ jsonQuote pyodideVersion ++ ",",
      "  packages: " ++ jsonStringifyList ir.packages ++ ",",
      "  pythonSource,",
      "\x7d);",
      ""]
  ++ ("const api: BridgeAPI = \x7b"
      :: ir.functions.map
          (fun fn => "  " ++ fn.name ++ ": callPython(" ++ jsonQuote fn.name ++ "),")
      ++ ["\x7d;"])
  ++ ["", "Comlink.expose(api);"]

/-- Modelled from the spec: the lines of the emitted worker artifact — a
fixed skeleton around the single strategy-dependent line. -/
def emitWorkerLines (ir : ModuleIR) (opts : WorkerEmitterOptions) : List String :=
  workerHeadLines
    ++ [sourceAcquisitionLine opts.bundler ir.moduleName]
    ++ workerTailLines ir opts.pyodideVersion

/-- Modelled from the spec: `emitWorker` from `src/cli/emitters/worker.js`
(absent from the snapshot). -/
def emitWorker (ir : ModuleIR) (opts : WorkerEmitterOptions) : String :=
  String.intercalate ("\n") (emitWorkerLines ir opts)

theorem zip_self_filter_ne {α : Type} [DecidableEq α] (l : List α) :
    (l.zip l).filter (fun p => decide (p.1 ≠ p.2)) = [] := by
  induction l with
  | nil => rfl
  | cons a t ih =>
      simp only [List.zip_cons_cons, List.filter_cons]
      rw [if_neg (by simp)]
      exact ih

/-- The three source-acquisition lines are pairwise distinct for every
module name (their constant parts have different lengths). -/
theorem sourceAcquisitionLine_ne (m : String) {b₁ b₂ : Bundler} (h : b₁ ≠ b₂) :
    sourceAcquisitionLine b₁ m ≠ sourceAcquisitionLine b₂ m := by
  have hlen : ∀ b, (sourceAcquisitionLine b m).length =
      match b with
      | .vite => 28 + m.length + 9
      | .webpack => 41 + m.length + 5
      | .inline => 24 := by
    intro b
    cases b <;>
      simp only [sourceAcquisitionLine, String.length_append] <;>
      rfl
  intro he
  have := congrArg String.length he
  rw [hlen b₁, hlen b₂] at this
  cases b₁ <;> cases b₂ <;> simp_all <;> try omega

/-- Claim C5: for every IR and distribution version, the worker artifacts
emitted under any two distinct bundler strategies differ in exactly one
line — the source-acquisition statement — and are otherwise textually
identical (same interface declaration, same bootstrap call, same expose
call). -/
theorem emitWorker_strategies_differ_one_line
    (ir : ModuleIR) (v : String) (b₁ b₂ : Bundler) (hne : b₁ ≠ b₂) :
    (emitWorkerLines ir ⟨v, b₁⟩).length = (emitWorkerLines ir ⟨v, b₂⟩).length
    ∧ ((emitWorkerLines ir ⟨v, b₁⟩).zip (emitWorkerLines ir ⟨v, b₂⟩)).filter
          (fun p => decide (p.1 ≠ p.2))
        = [(sourceAcquisitionLine b₁ ir.moduleName,
            sourceAcquisitionLine b₂ ir.moduleName)] := by
  constructor
  · simp [emitWorkerLines]
  · simp only [emitWorkerLines, List.append_assoc]
    rw [List.zip_append (rfl), List.zip_append (by simp)]
    simp only [List.zip_cons_cons, List.zip_nil_left, List.filter_append,
      zip_self_filter_ne, List.nil_append, List.append_nil,
      List.filter_cons, List.filter_nil]
    rw [if_pos]
    simp only [decide_eq_true_eq, ne_eq]
    exact sourceAcquisitionLine_ne ir.moduleName hne

/-- Claim C5, witness: the vite and webpack worker artifacts for the test
IR of `tests/cli/emitters/worker.test.ts` differ in exactly the
source-acquisition line. -/
theorem emitWorker_strategies_witness :
    (emitWorkerLines
        { moduleName := "engine", types := [], functions := [], packages := ["numpy"] }
        ⟨"0.26.4", .vite⟩).length
      = (emitWorkerLines
          { moduleName := "engine", types := [], functions := [], packages := ["numpy"] }
          ⟨"0.26.4", .webpack⟩).length
    ∧ ((emitWorkerLines
          { moduleName := "engine", types := [], functions := [], packages := ["numpy"] }
          ⟨"0.26.4", .vite⟩).zip
        (emitWorkerLines
          { moduleName := "engine", types := [], functions := [], packages := ["numpy"] }
          ⟨"0.26.4", .webpack⟩)).filter (fun p => decide (p.1 ≠ p.2))
      = [(sourceAcquisitionLine .vite ("engine"),
          sourceAcquisitionLine .webpack ("engine"))] :=
  emitWorker_strategies_differ_one_line
    { moduleName := "engine", types := [], functions := [], packages := ["numpy"] }
    ("0.26.4") .vite .webpack (by decide)

/-! ## Hooks emitter

Modelled from the spec (§4.4) and `tests/cli/emitters/hooks.test.ts`: the
emitter source is absent from the snapshot.  The tests pin the name
transform (`run_query` to `useRunQuery`, `get_all_items` to
`useGetAllItems`), the re-export of `usePyodide`, the
`createBridgeHook<BridgeAPI, InputParams, Result>("run_query")` call and
the type import from `./engine.types.js`. -/

/-- `String.prototype.split` on a single separator character, JavaScript
semantics: the empty string splits to one empty segment, separators at the
edges produce empty segments. -/
def splitOnChar (c : Char) : List Char → List (List Char)
  | [] => [[]]
  | x :: xs =>
    if x = c then [] :: splitOnChar c xs
    else
      match splitOnChar c xs with
      | [] => [[x]]
      | s :: rest => (x :: s) :: rest

/-- Capitalize one segment: upper-case its first character, keep the rest
unchanged (JavaScript `s.charAt(0).toUpperCase() + s.slice(1)`). -/
def capitalizeSeg : List Char → List Char
  | [] => []
  | x :: xs => x.toUpper :: xs

/-- Join segments with a separator character — the inverse image of
`splitOnChar` used to quantify over arbitrary underscore-separated
identifiers. -/
def joinSegs (c : Char) : List (List Char) → List Char
  | [] => []
  | [s] => s
  | s :: rest => s ++ c :: joinSegs c rest

/-- Modelled from the spec: the hooks emitter's name transform — split the
function identifier on underscores, capitalize each segment, concatenate. -/
def pascalCase (name : String) : String :=
  String.mk ((splitOnChar '_' name.data).map capitalizeSeg).flatten

/-- Modelled from the spec: the generated hook's name — the fixed verb
token `use` prefixed to the PascalCase transform of the function name. -/
def hookName (fnName : String) : String :=
  "use" ++ pascalCase fnName

/-- Named type references appearing in a type reference tree, in
left-to-right order. -/
def referencedTypeNames : TypeRef → List String
  | .reference n => [n]
  | .list e => referencedTypeNames e
  | .dict k v => referencedTypeNames k ++ referencedTypeNames v
  | .optional t => referencedTypeNames t
  | .primitive _ => []
  | .literal _ => []

/-- The deduplicated import set of the hooks artifact: exactly the named
types referenced by some function's parameters or return type. -/
def hooksImportedTypes (ir : ModuleIR) : List String :=
  ((ir.functions.map
      (fun fn =>
        (fn.params.map (fun p => referencedTypeNames p.type)).flatten
          ++ referencedTypeNames fn.returnType)).flatten).eraseDups

/-- The rendered parameter type slot of one generated hook. -/
def hookParamsType (fn : FunctionNode) : String :=
  match fn.params with
  | [] => "void"
  | ps => String.intercalate (", ") (ps.map (fun p => resolveTypeRef p.type))

/-- One generated hook line, pinned by the test fragment
`createBridgeHook<BridgeAPI, InputParams, Result>("run_query")`. -/
def hookLine (fn : FunctionNode) : String :=
  "export const " ++ hookName fn.name ++ " = createBridgeHook<BridgeAPI, "
    ++ hookParamsType fn ++ ", " ++ resolveTypeRef fn.returnType ++ ">("
    ++ jsonQuote fn.name ++ ");"

/-- Modelled from the spec: the lines of the emitted hooks artifact. -/
def emitHooksLines (ir : ModuleIR) : List String :=
  bannerLines
    ++ ["import \x7b usePyodide, createBridgeHook \x7d from \"pyodide-bridge/react\";",
        "import type \x7b BridgeAPI \x7d from \"./" ++ ir.moduleName ++ ".worker.js\";",
        "import type \x7b "
          ++ String.intercalate (", ") (hooksImportedTypes ir)
          ++ " \x7d from \"./" ++ ir.moduleName ++ ".types.js\";",
        "",
        "export \x7b usePyodide \x7d;",
        ""]
    ++ ir.functions.map hookLine

/-- Modelled from the spec: `emitHooks` from `src/cli/emitters/hooks.js`
(absent from the snapshot). -/
def emitHooks (ir : ModuleIR) : String :=
  String.intercalate ("\n") (emitHooksLines ir)

theorem splitOnChar_of_not_mem {c : Char} {s : List Char} (h : c ∉ s) :
    splitOnChar c s = [s] := by
  induction s with
  | nil => rfl
  | cons x xs ih =>
      have hx : ¬ x = c := fun he => h (he ▸ List.mem_cons_self x xs)
      have hxs : c ∉ xs := fun hm => h (List.mem_cons_of_mem x hm)
      simp only [splitOnChar, if_neg hx, ih hxs]

theorem splitOnChar_append {c : Char} {s t : List Char} (h : c ∉ s) :
    splitOnChar c (s ++ c :: t) = s :: splitOnChar c t := by
  induction s with
  | nil => simp [splitOnChar]
  | cons x xs ih =>
      have hx : ¬ x = c := fun he => h (he ▸ List.mem_cons_self x xs)
      have hxs : c ∉ xs := fun hm => h (List.mem_cons_of_mem x hm)
      have hrec := ih hxs
      simp only [List.cons_append, splitOnChar, if_neg hx, List.append_eq]
      rw [hrec]

theorem splitOnChar_joinSegs {c : Char} {segs : List (List Char)}
    (hne : segs ≠ []) (h : ∀ s ∈ segs, c ∉ s) :
    splitOnChar c (joinSegs c segs) = segs := by
  induction segs with
  | nil => exact absurd rfl hne
  | cons s rest ih =>
      cases rest with
      | nil =>
          simp only [joinSegs]
          exact splitOnChar_of_not_mem (h s (List.mem_cons_self s []))
      | cons s₂ rest₂ =>
          have hs : c ∉ s := h s (List.mem_cons_self s _)
          have hrest : ∀ u ∈ s₂ :: rest₂, c ∉ u :=
            fun u hu => h u (List.mem_cons_of_mem s hu)
          have : joinSegs c (s :: s₂ :: rest₂) = s ++ c :: joinSegs c (s₂ :: rest₂) := rfl
          rw [this, splitOnChar_append hs, ih (by simp) hrest]

/-- Claim C8: the hooks emitter derives the wrapper name by splitting the
function identifier on underscores, capitalizing each segment,
concatenating and prepending the fixed verb token `use` — `get_all_items`
yields `useGetAllItems` and `run_query` yields `useRunQuery` — and for an
arbitrary underscore-separated identifier (any nonempty list of
underscore-free segments) every segment is preserved and only its first
character is upper-cased. -/
theorem hookName_transform :
    hookName ("get_all_items") = "useGetAllItems"
    ∧ hookName ("run_query") = "useRunQuery"
    ∧ ∀ segs : List (List Char), segs ≠ [] → (∀ s ∈ segs, '_' ∉ s) →
        hookName (String.mk (joinSegs '_' segs))
          = "use" ++ String.mk (segs.map capitalizeSeg).flatten := by
  refine ⟨by decide, by decide, ?_⟩
  intro segs hne h
  simp only [hookName, pascalCase]
  rw [splitOnChar_joinSegs hne h]

/-- Claim C8, witness: the general transform evaluated at the segment
lists of `get_all_items` and `run_query`. -/
theorem hookName_transform_witness :
    hookName (String.mk (joinSegs '_'
        [['g', 'e', 't'], ['a', 'l', 'l'], ['i', 't', 'e', 'm', 's']]))
      = "use" ++ String.mk
          (([['g', 'e', 't'], ['a', 'l', 'l'],
             ['i', 't', 'e', 'm', 's']].map capitalizeSeg).flatten) :=
  hookName_transform.2.2
    [['g', 'e', 't'], ['a', 'l', 'l'], ['i', 't', 'e', 'm', 's']]
    (by decide) (by decide)

/-! ## Check engine

Embedded from `src/cli/check.ts`.  The filesystem is modelled as an
association list from paths to file contents: `lookup` returning `none`
models `fs.existsSync` returning false, `some content` models
`fs.readFileSync`.  `path.join` is modelled as `dir ++ "/" ++ name`. -/

/-- `CheckResult` from `src/cli/check.ts`. -/
structure CheckResult where
  upToDate : Bool
  outdatedFiles : List String
deriving DecidableEq, Repr

/-- The on-disk state the check engine reads: path to content. -/
abbrev FileSystem := List (String × String)

/-- `path.join(outdir, name)`. -/
def pathJoin (dir name : String) : String :=
  dir ++ "/" ++ name

/-- `fileMatchesContent` from `src/cli/check.ts`: false when the file does
not exist, otherwise a byte-for-byte comparison of the content. -/
def fileMatchesContent (fs : FileSystem) (filePath expectedContent : String) : Bool :=
  match fs.lookup filePath with
  | Option.none => false
  | Option.some actual => actual == expectedContent

/-- `checkGenerated` from `src/cli/check.ts`: regenerate the expected
artifacts in memory and push onto `outdatedFiles` — in order: types,
worker, then hooks when React generation is enabled — every path whose
on-disk content does not match; `upToDate` is `outdatedFiles.length === 0`. -/
def checkGenerated (ir : ModuleIR) (outdir : String)
    (workerOptions : WorkerEmitterOptions) (generateReact : Bool)
    (fs : FileSystem) : CheckResult :=
  let typesPath := pathJoin outdir (ir.moduleName ++ ".types.ts")
  let expectedTypes := emitTypes ir
  let typesOutdated : List String :=
    if fileMatchesContent fs typesPath expectedTypes then [] else [typesPath]
  let workerPath := pathJoin outdir (ir.moduleName ++ ".worker.ts")
  let expectedWorker := emitWorker ir workerOptions
  let workerOutdated : List String :=
    if fileMatchesContent fs workerPath expectedWorker then [] else [workerPath]
  let hooksOutdated : List String :=
    if generateReact then
      let hooksPath := pathJoin outdir (ir.moduleName ++ ".hooks.ts")
      let expectedHooks := emitHooks ir
      if fileMatchesContent fs hooksPath expectedHooks then [] else [hooksPath]
    else []
  let outdatedFiles := typesOutdated ++ workerOutdated ++ hooksOutdated
  { upToDate := outdatedFiles.length == 0, outdatedFiles := outdatedFiles }

/-- The expected artifact set of a generation/check run, in emission
order: canonical path paired with freshly regenerated content (two
artifacts, or three when React generation is enabled). -/
def expectedArtifacts (ir : ModuleIR) (outdir : String)
    (workerOptions : WorkerEmitterOptions) (generateReact : Bool) : FileSystem :=
  [(pathJoin outdir (ir.moduleName ++ ".types.ts"), emitTypes ir),
   (pathJoin outdir (ir.moduleName ++ ".worker.ts"), emitWorker ir workerOptions)]
    ++ (if generateReact then
          [(pathJoin outdir (ir.moduleName ++ ".hooks.ts"), emitHooks ir)]
        else [])

theorem fileMatchesContent_eq_true_iff (fs : FileSystem) (p c : String) :
    fileMatchesContent fs p c = true ↔ fs.lookup p = Option.some c := by
  unfold fileMatchesContent
  cases h : fs.lookup p with
  | none => simp
  | some a => simp [beq_iff_eq]

theorem checkGenerated_outdated_eq (ir : ModuleIR) (outdir : String)
    (opts : WorkerEmitterOptions) (react : Bool) (fs : FileSystem) :
    (checkGenerated ir outdir opts react fs).outdatedFiles
      = (expectedArtifacts ir outdir opts react).filterMap
          (fun pc =>
            if fileMatchesContent fs pc.1 pc.2 then Option.none
            else Option.some pc.1) := by
  cases react with
  | false =>
      cases h1 : fileMatchesContent fs (pathJoin outdir (ir.moduleName ++ ".types.ts"))
          (emitTypes ir) <;>
        cases h2 : fileMatchesContent fs (pathJoin outdir (ir.moduleName ++ ".worker.ts"))
            (emitWorker ir opts) <;>
          simp [checkGenerated, expectedArtifacts, List.filterMap_cons, h1, h2]
  | true =>
      cases h1 : fileMatchesContent fs (pathJoin outdir (ir.moduleName ++ ".types.ts"))
          (emitTypes ir) <;>
        cases h2 : fileMatchesContent fs (pathJoin outdir (ir.moduleName ++ ".worker.ts"))
            (emitWorker ir opts) <;>
          cases h3 : fileMatchesContent fs (pathJoin outdir (ir.moduleName ++ ".hooks.ts"))
              (emitHooks ir) <;>
            simp [checkGenerated, expectedArtifacts, List.filterMap_cons, h1, h2, h3]

theorem checkGenerated_upToDate_eq (ir : ModuleIR) (outdir : String)
    (opts : WorkerEmitterOptions) (react : Bool) (fs : FileSystem) :
    (checkGenerated ir outdir opts react fs).upToDate
      = ((checkGenerated ir outdir opts react fs).outdatedFiles.length == 0) :=
  rfl

/-- Claim C3: `checkGenerated` returns `upToDate = true` exactly when
every expected artifact file exists on disk with content byte-for-byte
equal to the freshly regenerated content; an expected file that is missing
is added to `outdatedFiles` (it is counted as outdated, the check is a
total function and nothing is raised). -/
theorem checkGenerated_contract (ir : ModuleIR) (outdir : String)
    (opts : WorkerEmitterOptions) (react : Bool) (fs : FileSystem) :
    ((checkGenerated ir outdir opts react fs).upToDate = true
      ↔ ∀ pc ∈ expectedArtifacts ir outdir opts react,
          fs.lookup pc.1 = Option.some pc.2)
    ∧ ∀ pc ∈ expectedArtifacts ir outdir opts react,
        fs.lookup pc.1 = Option.none →
          pc.1 ∈ (checkGenerated ir outdir opts react fs).outdatedFiles := by
  constructor
  · rw [checkGenerated_upToDate_eq, checkGenerated_outdated_eq]
    simp only [beq_iff_eq, List.length_eq_zero, List.filterMap_eq_nil_iff]
    constructor
    · intro hall pc hmem
      have hp := hall pc hmem
      by_cases hb : fileMatchesContent fs pc.1 pc.2
      · exact (fileMatchesContent_eq_true_iff _ _ _).mp hb
      · simp [hb] at hp
    · intro hall pc hmem
      have hb : fileMatchesContent fs pc.1 pc.2 = true :=
        (fileMatchesContent_eq_true_iff _ _ _).mpr (hall pc hmem)
      simp [hb]
  · intro pc hmem hnone
    rw [checkGenerated_outdated_eq]
    have hb : fileMatchesContent fs pc.1 pc.2 = false := by
      unfold fileMatchesContent
      rw [hnone]
    rw [List.mem_filterMap]
    exact ⟨pc, hmem, by simp [hb]⟩

/-- The IR of the check-engine test fixture (`tests/cli/check.test.ts`,
`testIR`), also the check scenario of spec §8. -/
def testIR : ModuleIR :=
  { moduleName := "test",
    types := [.literal ("Status") [.str "ok", .str "error"]],
    functions := [{ name := "run",
                    params := [{ name := "input", type := .primitive .str }],
                    returnType := .primitive .str }],
    packages := [] }

/-- Claim C3, witness: on an empty filesystem every expected artifact is
missing, and the types artifact path is reported as outdated. -/
theorem checkGenerated_contract_witness :
    pathJoin ("out") ("test" ++ ".types.ts")
      ∈ (checkGenerated testIR ("out") ⟨"0.26.4", .vite⟩ true []).outdatedFiles :=
  (checkGenerated_contract testIR ("out") ⟨"0.26.4", .vite⟩ true []).2
    (pathJoin ("out") ("test" ++ ".types.ts"), emitTypes testIR)
    (by simp [expectedArtifacts, testIR]) rfl

/-! ## Generation followed by check (claim C4) -/

/-- Overwrite the content stored at one path of the modelled filesystem,
leaving every other entry unchanged. -/
def overwrite (fs : FileSystem) (p t : String) : FileSystem :=
  fs.map (fun pc => if pc.1 = p then (pc.1, t) else pc)

theorem lookup_eq_of_mem_of_nodup {l : List (String × String)}
    (hnd : (l.map Prod.fst).Nodup) {p c : String} (hm : (p, c) ∈ l) :
    l.lookup p = Option.some c := by
  induction l with
  | nil => cases hm
  | cons a l ih =>
      obtain ⟨q, d⟩ := a
      rcases List.mem_cons.mp hm with he | hm'
      · cases he
        simp [List.lookup_cons]
      · have hq : q ∉ l.map Prod.fst := (List.nodup_cons.mp hnd).1
        have hpq : ¬ p = q := by
          intro he
          subst he
          exact hq (List.mem_map.mpr ⟨(p, c), hm', rfl⟩)
        rw [List.lookup_cons]
        have hb : (p == q) = false := beq_eq_false_iff_ne.mpr hpq
        rw [hb]
        exact ih (List.nodup_cons.mp hnd).2 hm'

/-- Every value stored under a key is determined when the keys are
duplicate-free. -/
theorem mem_value_eq_of_nodup {l : List (String × String)}
    (hnd : (l.map Prod.fst).Nodup) {p c d : String}
    (hc : (p, c) ∈ l) (hd : (p, d) ∈ l) : c = d := by
  have h1 := lookup_eq_of_mem_of_nodup hnd hc
  have h2 := lookup_eq_of_mem_of_nodup hnd hd
  rw [h1] at h2
  exact Option.some.inj h2

theorem expectedArtifacts_keys_nodup (ir : ModuleIR) (outdir : String)
    (opts : WorkerEmitterOptions) (react : Bool) :
    ((expectedArtifacts ir outdir opts react).map Prod.fst).Nodup := by
  have h1 : pathJoin outdir (ir.moduleName ++ ".types.ts")
      ≠ pathJoin outdir (ir.moduleName ++ ".worker.ts") :=
    string_append_ne_of_ne (outdir ++ "/")
      (string_append_ne_of_ne ir.moduleName (by decide))
  have h2 : pathJoin outdir (ir.moduleName ++ ".types.ts")
      ≠ pathJoin outdir (ir.moduleName ++ ".hooks.ts") :=
    string_append_ne_of_ne (outdir ++ "/")
      (string_append_ne_of_ne ir.moduleName (by decide))
  have h3 : pathJoin outdir (ir.moduleName ++ ".worker.ts")
      ≠ pathJoin outdir (ir.moduleName ++ ".hooks.ts") :=
    string_append_ne_of_ne (outdir ++ "/")
      (string_append_ne_of_ne ir.moduleName (by decide))
  cases react <;> simp [expectedArtifacts, h1, h2, h3]

theorem lookup_overwrite_self {l : List (String × String)} {p c : String}
    (hm : (p, c) ∈ l) (t : String) :
    (overwrite l p t).lookup p = Option.some t := by
  induction l with
  | nil => cases hm
  | cons a l ih =>
      obtain ⟨q, d⟩ := a
      by_cases hq : q = p
      · subst hq
        simp [overwrite, List.lookup_cons]
      · have hm' : (p, c) ∈ l := by
          rcases List.mem_cons.mp hm with he | hm'
          · cases he; exact absurd rfl hq
          · exact hm'
        have hb : (p == q) = false := beq_eq_false_iff_ne.mpr (Ne.symm hq)
        simp only [overwrite, List.map_cons, if_neg hq, List.lookup_cons, hb]
        exact ih hm'

theorem overwrite_cons (k d : String) (l : List (String × String)) (p t : String) :
    overwrite ((k, d) :: l) p t
      = (if k = p then (k, t) else (k, d)) :: overwrite l p t :=
  rfl

theorem lookup_overwrite_ne {l : List (String × String)} {p q t : String}
    (hne : q ≠ p) : (overwrite l p t).lookup q = l.lookup q := by
  induction l with
  | nil => rfl
  | cons a l ih =>
      obtain ⟨k, d⟩ := a
      rw [overwrite_cons]
      by_cases hk : k = p
      · rw [if_pos hk, List.lookup_cons, List.lookup_cons]
        cases hqk : q == k
        · exact ih
        · exact absurd ((beq_iff_eq.mp hqk).trans hk) hne
      · rw [if_neg hk, List.lookup_cons, List.lookup_cons]
        cases hqk : q == k
        · exact ih
        · rfl

/-- `filterMap` of a keyed list that selects exactly the (unique) entry at
key `p` and drops every other entry. -/
theorem filterMap_eq_single {l : List (String × String)}
    (hnd : (l.map Prod.fst).Nodup) {p c : String}
    (hm : (p, c) ∈ l) (f : String × String → Option String)
    (hfp : f (p, c) = Option.some p)
    (hfo : ∀ q d, (q, d) ∈ l → q ≠ p → f (q, d) = Option.none) :
    l.filterMap f = [p] := by
  induction l with
  | nil => cases hm
  | cons a l ih =>
      obtain ⟨q, d⟩ := a
      by_cases hq : q = p
      · subst hq
        have hdc : (q, d) = (q, c) := by
          rw [mem_value_eq_of_nodup hnd (List.mem_cons_self _ _) hm]
        have hrest : l.filterMap f = [] := by
          rw [List.filterMap_eq_nil_iff]
          intro a ha
          obtain ⟨k, e⟩ := a
          have hk : k ≠ q := by
            intro he
            subst he
            exact (List.nodup_cons.mp hnd).1 (List.mem_map.mpr ⟨(k, e), ha, rfl⟩)
          exact hfo k e (List.mem_cons_of_mem _ ha) hk
        rw [List.filterMap_cons, hdc, hfp, hrest]
      · have hm' : (p, c) ∈ l := by
          rcases List.mem_cons.mp hm with he | hm'
          · cases he; exact absurd rfl hq
          · exact hm'
        rw [List.filterMap_cons, hfo q d (List.mem_cons_self _ _) hq]
        exact ih (List.nodup_cons.mp hnd).2 hm'
          (fun k e hk => hfo k e (List.mem_cons_of_mem _ hk))

/-- Claim C4: generation followed by check is a fixed point.  The emitters
are pure functions, so emitting twice from the same IR and options yields
byte-identical output; a filesystem holding exactly the freshly emitted
artifacts at their canonical paths checks as up to date with no outdated
files; and overwriting exactly one artifact with any different text makes
the check report exactly that artifact's path. -/
theorem gen_check_fixed_point (ir : ModuleIR) (outdir : String)
    (opts : WorkerEmitterOptions) (react : Bool) :
    (emitTypes ir = emitTypes ir ∧ emitWorker ir opts = emitWorker ir opts
      ∧ emitHooks ir = emitHooks ir)
    ∧ ((checkGenerated ir outdir opts react
          (expectedArtifacts ir outdir opts react)).upToDate = true
        ∧ (checkGenerated ir outdir opts react
            (expectedArtifacts ir outdir opts react)).outdatedFiles = [])
    ∧ ∀ p c t, (p, c) ∈ expectedArtifacts ir outdir opts react → t ≠ c →
        ((checkGenerated ir outdir opts react
            (overwrite (expectedArtifacts ir outdir opts react) p t)).upToDate = false
          ∧ (checkGenerated ir outdir opts react
              (overwrite (expectedArtifacts ir outdir opts react) p t)).outdatedFiles
            = [p]) := by
  have hnd := expectedArtifacts_keys_nodup ir outdir opts react
  refine ⟨⟨rfl, rfl, rfl⟩, ?_, ?_⟩
  · have houtdated : (checkGenerated ir outdir opts react
        (expectedArtifacts ir outdir opts react)).outdatedFiles = [] := by
      rw [checkGenerated_outdated_eq, List.filterMap_eq_nil_iff]
      intro pc hmem
      obtain ⟨p, c⟩ := pc
      have hb : fileMatchesContent (expectedArtifacts ir outdir opts react) p c = true :=
        (fileMatchesContent_eq_true_iff _ _ _).mpr
          (lookup_eq_of_mem_of_nodup hnd hmem)
      simp [hb]
    refine ⟨?_, houtdated⟩
    rw [checkGenerated_upToDate_eq, houtdated]
    rfl
  · intro p c t hmem hne
    have houtdated : (checkGenerated ir outdir opts react
        (overwrite (expectedArtifacts ir outdir opts react) p t)).outdatedFiles = [p] := by
      rw [checkGenerated_outdated_eq]
      refine filterMap_eq_single hnd hmem _ ?_ ?_
      · have hl : (overwrite (expectedArtifacts ir outdir opts react) p t).lookup p
            = Option.some t := lookup_overwrite_self hmem t
        have hb : fileMatchesContent
            (overwrite (expectedArtifacts ir outdir opts react) p t) p c = false := by
          unfold fileMatchesContent
          rw [hl]
          exact beq_eq_false_iff_ne.mpr hne
        simp [hb]
      · intro q d hqd hqp
        have hl : (overwrite (expectedArtifacts ir outdir opts react) p t).lookup q
            = Option.some d := by
          rw [lookup_overwrite_ne hqp]
          exact lookup_eq_of_mem_of_nodup hnd hqd
        have hb : fileMatchesContent
            (overwrite (expectedArtifacts ir outdir opts react) p t) q d = true :=
          (fileMatchesContent_eq_true_iff _ _ _).mpr hl
        simp [hb]
    refine ⟨?_, houtdated⟩
    rw [checkGenerated_upToDate_eq, houtdated]
    rfl

/-- Claim C4, witness: the check scenario of spec §8 and
`tests/cli/check.test.ts` — the three artifacts of the test IR check
clean, and overwriting the types artifact with `// old content` makes the
check report exactly that path. -/
theorem gen_check_fixed_point_witness :
    ((checkGenerated testIR ("out") ⟨"0.26.4", .vite⟩ true
        (overwrite (expectedArtifacts testIR ("out") ⟨"0.26.4", .vite⟩ true)
          (pathJoin ("out") ("test" ++ ".types.ts")) "// old content")).upToDate = false
      ∧ (checkGenerated testIR ("out") ⟨"0.26.4", .vite⟩ true
          (overwrite (expectedArtifacts testIR ("out") ⟨"0.26.4", .vite⟩ true)
            (pathJoin ("out") ("test" ++ ".types.ts")) "// old content")).outdatedFiles
        = [pathJoin ("out") ("test" ++ ".types.ts")]) :=
  (gen_check_fixed_point testIR ("out") ⟨"0.26.4", .vite⟩ true).2.2
    (pathJoin ("out") ("test" ++ ".types.ts")) (emitTypes testIR) "// old content"
    (by simp [expectedArtifacts, testIR]) (by decide)

/-! ## The per-module generation pipeline (claim C2)

Embedded from `src/cli/bin.ts` (`main`, generate mode): for each module the
CLI parses the Python source into an IR and then directly writes the
artifacts — types, worker, then hooks when React generation is enabled.
`main` imports only the config loader, the Python parser, the three
emitters and `checkGenerated`; it contains no IR validation step of any
kind. -/

/-- The artifact writes performed by `main`'s generate mode for one
module, in program order (path paired with content).  Mirrors
`src/cli/bin.ts` lines 88–108. -/
def generateModule (ir : ModuleIR) (outdir : String)
    (workerOptions : WorkerEmitterOptions) (generateReact : Bool) :
    List (String × String) :=
  [(pathJoin outdir (ir.moduleName ++ ".types.ts"), emitTypes ir),
   (pathJoin outdir (ir.moduleName ++ ".worker.ts"), emitWorker ir workerOptions)]
    ++ (if generateReact then
          [(pathJoin outdir (ir.moduleName ++ ".hooks.ts"), emitHooks ir)]
        else [])

/-- The names declared by the IR's type nodes (both variants share one
namespace). -/
def declaredTypeNames (ir : ModuleIR) : List String :=
  ir.types.map (fun t =>
    match t with
    | .typeddict n _ _ => n
    | .literal n _ => n)

/-- Every named type reference occurring in the IR's record fields,
function parameters and return types. -/
def irTypeRefs (ir : ModuleIR) : List String :=
  (ir.types.map (fun t =>
      match t with
      | .typeddict _ _ fields =>
          (fields.map (fun f => referencedTypeNames f.type)).flatten
      | .literal _ _ => [])).flatten
    ++ (ir.functions.map (fun fn =>
          (fn.params.map (fun p => referencedTypeNames p.type)).flatten
            ++ referencedTypeNames fn.returnType)).flatten

/-- Modelled from the spec: the dangling-reference predicate of the
module-level validation pass required by §4.1 and §7.  No corresponding
code exists in the repository — this definition only states what the
claim's validation would have to detect. -/
def hasDanglingReference (ir : ModuleIR) : Bool :=
  (irTypeRefs ir).any (fun n => ¬ (declaredTypeNames ir).contains n)

/-- An IR whose single record field references the undeclared type name
`Ghost`. -/
def danglingIR : ModuleIR :=
  { moduleName := "m",
    types := [.typeddict ("Rec") true
      [{ name := "x", type := .reference ("Ghost"), required := true }]],
    functions := [],
    packages := [] }

/-- Claim C2, counterexample: the IR `danglingIR` has a dangling type
reference, yet the generation pipeline emits all three artifacts — the
claimed validation pass does not exist, emission proceeds on the invalid
IR, and the dangling name is rendered verbatim into the types artifact. -/
theorem c2_no_validation_counterexample :
    hasDanglingReference danglingIR = true
    ∧ (generateModule danglingIR ("out") ⟨"0.26.4", .vite⟩ true).length = 3
    ∧ emitTypeNodeLines (.typeddict ("Rec") true
        [{ name := "x", type := .reference ("Ghost"), required := true }])
      = ["export type Rec = \x7b", "  x: Ghost;", "\x7d;"] := by
  refine ⟨by decide, by decide, by decide⟩

/-- Claim C2, amended: no module-level validation pass exists.  The CLI
emits artifacts directly from the parsed IR for every input — the full
artifact list is always produced (three artifacts, or two with React
disabled), and a `reference` is resolved to its bare name whether or not
it is declared. -/
theorem c2_emission_always_proceeds (ir : ModuleIR) (outdir : String)
    (opts : WorkerEmitterOptions) (react : Bool) :
    (generateModule ir outdir opts react).length = (if react then 3 else 2)
    ∧ ∀ n, resolveTypeRef (.reference n) = n := by
  refine ⟨?_, fun n => rfl⟩
  cases react <;> simp [generateModule]

/-! ## Runtime values

A model of the JavaScript values the runtime helpers operate on.  Plain
objects and `Map` entries are association lists; `instanceof Map`
distinguishes `jsMap` from `obj`, `Array.isArray` distinguishes `arr`.
Property access (`"k" in o`, `o.k`) is modelled as own-property lookup;
numbers are modelled as integers. -/
inductive JSValue where
  | null
  | undef
  | bool (b : Bool)
  | num (n : Int)
  | str (s : String)
  | arr (items : List JSValue)
  | obj (fields : List (String × JSValue))
  | jsMap (entries : List (JSValue × JSValue))
deriving Repr

mutual

/-- JavaScript `String(v)` coercion: `null`/`undefined`/booleans/numbers
print their tokens, strings pass through, arrays join their elements with
commas, plain objects print `[object Object]` and `Map` instances print
`[object Map]`. -/
def jsToString : JSValue → String
  | .null => "null"
  | .undef => "undefined"
  | .bool b => if b then "true" else "false"
  | .num n => toString n
  | .str s => s
  | .arr items => String.intercalate (",") (jsToStringList items)
  | .obj _ => "[object Object]"
  | .jsMap _ => "[object Map]"

/-- `String(v)` mapped over the elements of an array. -/
def jsToStringList : List JSValue → List String
  | [] => []
  | v :: vs => jsToString v :: jsToStringList vs

end

/-- `BridgeError` from `src/runtime/error.ts`: a structured error carrying
a code and a message. -/
structure BridgeError where
  code : String
  message : String
deriving DecidableEq, Repr

/-- `detectBridgeError` from `src/runtime/error.ts`: throws a
`BridgeError` (modelled as `Except.error`) when the result is a non-null
object whose `error` property is a non-null object having both a `code`
and a `message` property, coercing both to strings; otherwise returns
normally (`Except.ok ()`). -/
def detectBridgeError (result : JSValue) : Except BridgeError Unit :=
  match result with
  | .obj fields =>
    match fields.lookup ("error") with
    | Option.some (.obj efields) =>
      match efields.lookup ("code"), efields.lookup ("message") with
      | Option.some code, Option.some message =>
          Except.error ⟨jsToString code, jsToString message⟩
      | _, _ => Except.ok ()
    | _ => Except.ok ()
  | _ => Except.ok ()

theorem detect_error_of_shape {fields efields : List (String × JSValue)}
    {cv mv : JSValue}
    (hl : fields.lookup ("error") = Option.some (.obj efields))
    (hc : efields.lookup ("code") = Option.some cv)
    (hm : efields.lookup ("message") = Option.some mv) :
    detectBridgeError (.obj fields)
      = Except.error ⟨jsToString cv, jsToString mv⟩ := by
  simp [detectBridgeError, hl, hc, hm]

theorem detect_ok_or_error_shape (result : JSValue) :
    (∃ fields efields cv mv,
        result = .obj fields
        ∧ fields.lookup ("error") = Option.some (.obj efields)
        ∧ efields.lookup ("code") = Option.some cv
        ∧ efields.lookup ("message") = Option.some mv)
    ∨ detectBridgeError result = Except.ok () := by
  cases result
  case obj fields =>
    cases hl : fields.lookup ("error")
    case none => exact Or.inr (by simp [detectBridgeError, hl])
    case some v =>
      cases v
      case obj efields =>
        cases hc : efields.lookup ("code")
        case none => exact Or.inr (by simp [detectBridgeError, hl, hc])
        case some cv =>
          cases hm2 : efields.lookup ("message")
          case none => exact Or.inr (by simp [detectBridgeError, hl, hc, hm2])
          case some mv => exact Or.inl ⟨fields, efields, cv, mv, rfl, hl, hc, hm2⟩
      all_goals exact Or.inr (by simp [detectBridgeError, hl])
  all_goals exact Or.inr rfl

/-- Claim C7: `detectBridgeError` throws a typed `BridgeError` carrying
the contained code and message (each coerced to a string) exactly when its
argument is an object whose `error` property is an object having both a
`code` and a `message` property; for every other input shape — a
non-object result, `error` being a string, an error object missing `code`
or missing `message` — it returns without throwing. -/
theorem detectBridgeError_contract (result : JSValue) (c m : String) :
    (detectBridgeError result = Except.error ⟨c, m⟩
      ↔ ∃ fields efields codeV msgV,
          result = .obj fields
          ∧ fields.lookup ("error") = Option.some (.obj efields)
          ∧ efields.lookup ("code") = Option.some codeV
          ∧ efields.lookup ("message") = Option.some msgV
          ∧ c = jsToString codeV ∧ m = jsToString msgV)
    ∧ (detectBridgeError result = Except.ok ()
      ↔ ¬ ∃ fields efields codeV msgV,
          result = .obj fields
          ∧ fields.lookup ("error") = Option.some (.obj efields)
          ∧ efields.lookup ("code") = Option.some codeV
          ∧ efields.lookup ("message") = Option.some msgV) := by
  constructor
  · constructor
    · intro h
      rcases detect_ok_or_error_shape result with hshape | hok
      · obtain ⟨fields, efields, cv, mv, hres, hl, hc, hm2⟩ := hshape
        subst hres
        rw [detect_error_of_shape hl hc hm2] at h
        injection h with h'
        injection h' with e1 e2
        exact ⟨fields, efields, cv, mv, rfl, hl, hc, hm2, e1.symm, e2.symm⟩
      · rw [hok] at h
        exact absurd h (by simp)
    · rintro ⟨fields, efields, cv, mv, rfl, hl, hc, hm2, rfl, rfl⟩
      exact detect_error_of_shape hl hc hm2
  · constructor
    · intro hok
      rintro ⟨fields, efields, cv, mv, rfl, hl, hc, hm2⟩
      rw [detect_error_of_shape hl hc hm2] at hok
      exact absurd hok (by simp)
    · intro hns
      rcases detect_ok_or_error_shape result with hshape | hok
      · exact absurd hshape hns
      · exact hok

/-- Claim C7, witness: the error-dictionary value of the runtime tests
(`{ error: { code: "NOT_FOUND", message: "item not found" } }`) throws a
`BridgeError` carrying both strings. -/
theorem detectBridgeError_contract_witness :
    detectBridgeError (.obj [("error",
        .obj [("code", .str ("NOT_FOUND")), ("message", .str ("item not found"))])])
      = Except.error ⟨"NOT_FOUND", "item not found"⟩ :=
  (detectBridgeError_contract
      (.obj [("error",
        .obj [("code", .str ("NOT_FOUND")), ("message", .str ("item not found"))])])
      ("NOT_FOUND") ("item not found")).1.mpr
    ⟨_, _, .str ("NOT_FOUND"), .str ("item not found"), rfl, rfl, rfl, rfl, rfl, rfl⟩

/-! ## deepConvertMaps (claim C10)

Embedded from `src/runtime/deep-convert.ts`. -/

mutual

/-- `deepConvertMaps` from `src/runtime/deep-convert.ts`: a `Map` becomes
a plain object whose keys are `String(k)` and whose values are converted
recursively; an array is converted elementwise; everything else —
primitives and plain objects alike — passes through unchanged. -/
def deepConvertMaps : JSValue → JSValue
  | .jsMap entries => .obj (deepConvertEntries entries)
  | .arr items => .arr (deepConvertList items)
  | v => v

/-- The elementwise conversion of an array's items. -/
def deepConvertList : List JSValue → List JSValue
  | [] => []
  | v :: vs => deepConvertMaps v :: deepConvertList vs

/-- The entrywise conversion of a `Map`'s entries. -/
def deepConvertEntries : List (JSValue × JSValue) → List (String × JSValue)
  | [] => []
  | (k, v) :: rest => (jsToString k, deepConvertMaps v) :: deepConvertEntries rest

end

theorem deepConvertList_eq_map (items : List JSValue) :
    deepConvertList items = items.map deepConvertMaps := by
  induction items with
  | nil => rfl
  | cons v vs ih => simp [deepConvertList, ih]

theorem deepConvertEntries_eq_map (entries : List (JSValue × JSValue)) :
    deepConvertEntries entries
      = entries.map (fun kv => (jsToString kv.1, deepConvertMaps kv.2)) := by
  induction entries with
  | nil => rfl
  | cons kv rest ih =>
      obtain ⟨k, v⟩ := kv
      simp [deepConvertEntries, ih]

/-- Claim C10: `deepConvertMaps` converts every `Map` to a plain object
keyed by the string coercions `String(k)` of its keys with recursively
converted values, converts arrays elementwise, and returns every other
value — primitives and plain objects alike — unchanged; in particular it
does not recurse into plain objects, so a `Map` nested inside a plain
object is returned unconverted. -/
theorem deepConvertMaps_contract :
    (∀ entries, deepConvertMaps (.jsMap entries)
        = .obj (entries.map (fun kv => (jsToString kv.1, deepConvertMaps kv.2))))
    ∧ (∀ items, deepConvertMaps (.arr items) = .arr (items.map deepConvertMaps))
    ∧ (∀ v : JSValue, (∀ entries, v ≠ .jsMap entries) →
        (∀ items, v ≠ .arr items) → deepConvertMaps v = v)
    ∧ deepConvertMaps (.obj [("m", .jsMap [(.str ("k"), .num 1)])])
        = .obj [("m", .jsMap [(.str ("k"), .num 1)])] := by
  refine ⟨?_, ?_, ?_, rfl⟩
  · intro entries
    rw [deepConvertMaps, deepConvertEntries_eq_map]
  · intro items
    rw [deepConvertMaps, deepConvertList_eq_map]
  · intro v hmap harr
    cases v with
    | jsMap entries => exact absurd rfl (hmap entries)
    | arr items => exact absurd rfl (harr items)
    | null => rfl
    | undef => rfl
    | bool b => rfl
    | num n => rfl
    | str s => rfl
    | obj fields => rfl

/-- Claim C10, witness: a primitive passes through unchanged, applied to
the pass-through clause of the contract; and the `Map` clause evaluated on
the integer-keyed map of the runtime tests yields string keys. -/
theorem deepConvertMaps_contract_witness :
    deepConvertMaps (.str ("hello")) = .str ("hello")
    ∧ deepConvertMaps (.jsMap [(.num 1, .str ("one")), (.num 2, .str ("two"))])
        = .obj [("1", .str ("one")), ("2", .str ("two"))] :=
  ⟨deepConvertMaps_contract.2.2.1 (.str ("hello"))
      (fun _ h => JSValue.noConfusion h) (fun _ h => JSValue.noConfusion h),
    (deepConvertMaps_contract.1 [(.num 1, .str ("one")), (.num 2, .str ("two"))]).trans
      (by rfl)⟩

/-! ## Worker bootstrap (claim C9)

Embedded from `src/runtime/worker-bootstrap.ts`.  The calls made against
the Pyodide runtime are modelled as an effect trace in program order. -/

/-- `BootstrapOptions` from `src/runtime/worker-bootstrap.ts`. -/
structure BootstrapOptions where
  pyodideVersion : String
  packages : List String
  pythonSource : String
deriving DecidableEq, Repr

/-- One observable call of the worker bootstrap, in the order the code
performs them. -/
inductive Effect where
  | importModule (url : String)
  | importScripts (url : String)
  | loadPyodide (indexURL : String)
  | loadPackage (pkg : String)
  | runPythonAsync (code : String)
  | runPython (code : String)
deriving DecidableEq, Repr

/-- The Pyodide CDN base URL built from the distribution version. -/
def cdnUrl (pyodideVersion : String) : String :=
  "https://cdn.jsdelivr.net/pyodide/v" ++ pyodideVersion ++ "/full/"

/-- The micropip install code executed when packages are declared:
`import micropip; await micropip.install(JSON.stringify(packages))` with
the literal ordered package list. -/
def micropipInstallCode (packages : List String) : String :=
  "\nimport micropip\nawait micropip.install(" ++ jsonStringifyList packages ++ ")\n"

/-- `bootstrapPyodide` from `src/runtime/worker-bootstrap.ts` as an effect
trace.  `hasLoadPyodide` models whether `globalThis.loadPyodide` is
already defined; `mjsImportFails` models the `catch` fallback from the
dynamic ESM import to `importScripts`.  The code: acquires `loadPyodide`
if needed, calls `loadPyodide({indexURL: cdnUrl})`, then — only when the
package list is nonempty — loads `micropip` and runs the install code,
and finally executes the Python source with `runPython`. -/
def bootstrapPyodide (options : BootstrapOptions)
    (hasLoadPyodide mjsImportFails : Bool) : List Effect :=
  let url := cdnUrl options.pyodideVersion
  let acquire : List Effect :=
    if hasLoadPyodide then []
    else if mjsImportFails then
      [.importModule (url ++ "pyodide.mjs"), .importScripts (url ++ "pyodide.js")]
    else [.importModule (url ++ "pyodide.mjs")]
  let install : List Effect :=
    if options.packages.length > 0 then
      [.loadPackage ("micropip"), .runPythonAsync (micropipInstallCode options.packages)]
    else []
  acquire ++ [.loadPyodide url] ++ install ++ [.runPython options.pythonSource]

/-- The initialization segment of the bootstrap trace: script acquisition
(when needed) followed by the `loadPyodide` call at the version-derived
CDN URL. -/
def initEffects (pyodideVersion : String)
    (hasLoadPyodide mjsImportFails : Bool) : List Effect :=
  (if hasLoadPyodide then []
   else if mjsImportFails then
     [.importModule (cdnUrl pyodideVersion ++ "pyodide.mjs"),
      .importScripts (cdnUrl pyodideVersion ++ "pyodide.js")]
   else [.importModule (cdnUrl pyodideVersion ++ "pyodide.mjs")])
    ++ [.loadPyodide ("https://cdn.jsdelivr.net/pyodide/v"
          ++ pyodideVersion ++ "/full/")]

/-- Claim C9: the worker bootstrap performs, in order: initialization of
the interpreter at the given distribution version (the `loadPyodide` call
at the version-derived CDN URL), then — only when the package list is
nonempty — installation of the literal ordered package list exactly as
given (serialized verbatim by `JSON.stringify`, no deduplication, no
dependency resolution), then execution of the acquired Python source;
with an empty package list the installation segment is skipped entirely. -/
theorem bootstrapPyodide_order (options : BootstrapOptions)
    (hasLoadPyodide mjsImportFails : Bool) :
    bootstrapPyodide options hasLoadPyodide mjsImportFails
      = initEffects options.pyodideVersion hasLoadPyodide mjsImportFails
        ++ (if options.packages = [] then []
            else [Effect.loadPackage ("micropip"),
                  Effect.runPythonAsync
                    ("\nimport micropip\nawait micropip.install("
                      ++ "[" ++ String.intercalate (",")
                            (options.packages.map jsonQuote) ++ "]"
                      ++ ")\n")])
        ++ [Effect.runPython options.pythonSource] := by
  simp only [bootstrapPyodide, initEffects, micropipInstallCode, jsonStringifyList,
    cdnUrl, List.append_assoc]
  cases hp : options.packages with
  | nil => simp
  | cons a l => simp [← String.append_assoc]

end PyodideBridge
